import Mathlib

/-!
Verification of the NimbusOS cooperative kernel (src/nimbusOS.ino).

The source contains two variants of the kernel. The second variant
(`class NimbusOS` with messaging, bit-field task descriptors, `add`,
`sleep`, `suspendTask`, `resumeTask`, `sendMessage`, `receiveMessage`,
`run`, and `class SPIMgr`) is embedded below as the primary model; the
first variant differs only in the priority comparison of the selection
loop (`>` instead of `>=`), which is captured by the comparison
parameter `cmpGT` versus `cmpGE`.

Machine integers are modelled as `Nat` with explicit reductions where
the C code truncates: `uint32_t` arithmetic is `% 4294967296`,
`uint16_t` fields are `% 65536`, `uint8_t` is `% 256`, the 2-bit `pri`
bit-field is `% 4` and the 3-bit `id` bit-field is `% 8`.
-/

namespace Nimbus

/-- MAX_TASKS from the source. -/
def MAX_TASKS : Nat := 6

/-- T_READY task state constant. -/
def T_READY : Nat := 1

/-- T_RUN task state constant. -/
def T_RUN : Nat := 2

/-- T_WAIT task state constant. -/
def T_WAIT : Nat := 3

/-- T_SUSPENDED task state constant. -/
def T_SUSPENDED : Nat := 4

/-- 2^32, the modulus of `uint32_t` arithmetic. -/
def U32 : Nat := 4294967296

/-- 2^16, the modulus of `uint16_t` fields. -/
def U16 : Nat := 65536

/-- The anonymous `message` struct inside `Task`: one-slot mailbox.
`data` always holds the 8 payload bytes of the `uint8_t data[8]` array. -/
structure Mailbox where
  mtype : Nat
  data : List Nat
  msize : Nat
  pending : Bool
deriving DecidableEq

/-- `struct Task` of the second variant: function pointer omitted (the
effect of a dispatched task body is modelled by `ApiCall` lists). -/
structure Task where
  period : Nat
  last : Nat
  state : Nat
  pri : Nat
  tid : Nat
  sleepUntil : Nat
  startRun : Nat
  message : Mailbox
deriving DecidableEq

/-- The all-zero task produced by `memset(t, 0, sizeof(t))`. -/
def task0 : Task :=
  ⟨0, 0, 0, 0, 0, 0, 0, ⟨0, List.replicate 8 0, 0, false⟩⟩

/-- The scheduler-visible state of `class NimbusOS`: the registered
prefix of the task array (`t`, length = `n`), `cur`, `ticks`, `ctxSw`,
`suspendFlags` and `lowPowerMode`. -/
structure OsState where
  t : List Task
  cur : Nat
  ticks : Nat
  ctxSw : Nat
  suspendFlags : Nat
  lowPowerMode : Bool
deriving DecidableEq

/-- The constructor-initialised state: `n = 0`, all counters zero. -/
def initState : OsState := ⟨[], 0, 0, 0, 0, false⟩

/-- In-place update of one array slot, `t[i] = f(t[i])`. -/
def modifyAt (f : Task → Task) : Nat → List Task → List Task
  | _, [] => []
  | 0, tk :: rest => f tk :: rest
  | i + 1, tk :: rest => tk :: modifyAt f i rest

/-- Read of array slot `t[i]` (claims supply `i < n`). -/
def taskAt (st : OsState) (i : Nat) : Task := st.t.getD i task0

/-- `NimbusOS::add`: registration.  Returns the old `n` and appends a
fresh descriptor, or returns `-1` without mutation at capacity.  The
2-bit `pri` and 3-bit `id` bit-fields truncate. -/
def add (st : OsState) (p pr : Nat) : Int × OsState :=
  if st.t.length ≥ MAX_TASKS then (-1, st)
  else
    ((st.t.length : Int),
     { st with t := st.t ++
        [{ period := p % U16, last := 0, state := T_READY, pri := pr % 4,
           tid := st.t.length % 8, sleepUntil := 0, startRun := 0,
           message := ⟨0, List.replicate 8 0, 0, false⟩ }] })

/-- `NimbusOS::sleep`: `t[cur].state = T_WAIT; t[cur].sleepUntil =
millis() + ms` with the injectable clock value `now` standing for
`millis()` and `ms` a `uint16_t` parameter. -/
def sleep (st : OsState) (now ms : Nat) : OsState :=
  { st with t := (modifyAt
      (fun tk => { tk with state := T_WAIT, sleepUntil := (now + ms % U16) % U32 })
      st.cur st.t) }

/-- `NimbusOS::suspendTask`: sets the suspend bit; forces state to
`T_SUSPENDED` only when the state is not `T_WAIT`. -/
def suspendTask (st : OsState) (id : Nat) : Int × OsState :=
  if id < st.t.length then
    (0, { st with
      suspendFlags := (st.suspendFlags ||| (1 <<< id)) % 256,
      t := if (taskAt st id).state ≠ T_WAIT then
             modifyAt (fun tk => { tk with state := T_SUSPENDED }) id st.t
           else st.t })
  else (-1, st)

/-- `NimbusOS::resumeTask`: clears the suspend bit; promotes to
`T_READY` only from `T_SUSPENDED`. -/
def resumeTask (st : OsState) (id : Nat) : Int × OsState :=
  if id < st.t.length then
    (0, { st with
      suspendFlags := st.suspendFlags &&& (255 ^^^ ((1 <<< id) % 256)),
      t := if (taskAt st id).state = T_SUSPENDED then
             modifyAt (fun tk => { tk with state := T_READY }) id st.t
           else st.t })
  else (-1, st)

/-- `NimbusOS::sendMessage`: `-1` on out-of-range id or payload `> 8`,
`-2` when the target mailbox is pending, otherwise stores type, copies
`size` bytes (the rest of the 8-byte buffer is untouched) and sets
`pending`. -/
def sendMessage (st : OsState) (taskId msgType : Nat) (data : List Nat)
    (size : Nat) : Int × OsState :=
  if taskId ≥ st.t.length ∨ size > 8 then (-1, st)
  else if (taskAt st taskId).message.pending then (-2, st)
  else
    (0, { st with t := (modifyAt
      (fun tk => { tk with message :=
        { mtype := msgType % 256,
          data := (data.take size).map (fun b => b % 256) ++ tk.message.data.drop size,
          msize := size % 256,
          pending := true } }) taskId st.t) })

/-- `NimbusOS::receiveMessage`: returns `(bytes_copied, written
outputs, new state)`.  `none` for the outputs models that `*msgType`
and `data` are not written when nothing is pending. -/
def receiveMessage (st : OsState) (maxSize : Nat) :
    Nat × Option (Nat × List Nat) × OsState :=
  let m := (taskAt st st.cur).message
  if !m.pending then (0, none, st)
  else
    let copySize := min (maxSize % 256) m.msize
    (copySize, some (m.mtype, m.data.take copySize),
     { st with t := (modifyAt
        (fun tk => { tk with message := { tk.message with pending := false } })
        st.cur st.t) })

/-- `millis() - t[i].last` in `uint32_t` arithmetic (`last` is the
16-bit truncated last-dispatch stamp promoted to 32 bits). -/
def elapsed (now last : Nat) : Nat := ((now % U32) + U32 - last % U32) % U32

/-- The suspend-bit test `suspendFlags & (1 << i)` of the scheduler
loop. -/
def susBit (sus i : Nat) : Bool := sus &&& (1 <<< i) != 0

/-- The sleep-expiry step of one loop pass for one task:
`if (t[i].state == T_WAIT && now >= t[i].sleepUntil) { ... }`. -/
def wakeStep (tk : Task) (now : Nat) : Task :=
  if tk.state = T_WAIT ∧ tk.sleepUntil ≤ now then
    { tk with state := T_READY, sleepUntil := 0 }
  else tk

/-- The eligibility test of the selection loop:
`t[i].state == T_READY && (now - t[i].last) >= t[i].period`. -/
def eligB (tk : Task) (now : Nat) : Bool :=
  tk.state == T_READY && decide (tk.period ≤ elapsed now tk.last)

/-- The sleep-expiry pass over the whole table (suspended tasks are
skipped by `continue` before the wake check). -/
def wakePass (sus now : Nat) : List Task → Nat → List Task
  | [], _ => []
  | tk :: rest, i0 =>
      (if susBit sus i0 then tk else wakeStep tk now) ::
        wakePass sus now rest (i0 + 1)

/-- The best-task selection scan, parameterised by the priority
comparison used against the running maximum (`cmpGT` in the first
variant, `cmpGE` in the second). -/
def scanBest (cmp : Nat → Nat → Bool) (sus now : Nat) :
    List Task → Nat → Option Nat → Nat → Option Nat
  | [], _, best, _ => best
  | tk :: rest, i0, best, m =>
    if susBit sus i0 then scanBest cmp sus now rest (i0 + 1) best m
    else if eligB tk now then
      (if cmp tk.pri m then scanBest cmp sus now rest (i0 + 1) (some i0) tk.pri
       else scanBest cmp sus now rest (i0 + 1) best m)
    else scanBest cmp sus now rest (i0 + 1) best m

/-- First variant's comparison `tasks[i].priority > highestPriority`. -/
def cmpGT (p m : Nat) : Bool := decide (m < p)

/-- Second variant's comparison `t[i].pri >= maxPri`. -/
def cmpGE (p m : Nat) : Bool := decide (m ≤ p)

/-- The complete selection of the first variant's `run()` loop body
over an (already woken) table. -/
def selLoop1 (ts : List Task) (sus now : Nat) : Option Nat :=
  scanBest cmpGT sus now ts 0 none 0

/-- The complete selection of the second variant's `run()` loop body
over an (already woken) table. -/
def selLoop2 (ts : List Task) (sus now : Nat) : Option Nat :=
  scanBest cmpGE sus now ts 0 none 0

/-- One core-API call a dispatched task body may make on the kernel. -/
inductive ApiCall where
  | sleepA (ms : Nat)
  | suspendA (id : Nat)
  | resumeA (id : Nat)
  | sendA (taskId msgType : Nat) (data : List Nat) (size : Nat)
  | receiveA (maxSize : Nat)
  | powerA (enabled : Bool)
deriving DecidableEq

/-- State effect of one API call made by the running task. -/
def applyCall (st : OsState) (now : Nat) : ApiCall → OsState
  | .sleepA ms => sleep st now ms
  | .suspendA id => (suspendTask st id).2
  | .resumeA id => (resumeTask st id).2
  | .sendA taskId msgType data size => (sendMessage st taskId msgType data size).2
  | .receiveA maxSize => (receiveMessage st maxSize).2.2
  | .powerA enabled => { st with lowPowerMode := enabled }

/-- State effect of the whole body of a dispatched task, applied in
call order. -/
def applyCalls (st : OsState) (now : Nat) : List ApiCall → OsState
  | [] => st
  | c :: rest => applyCalls (applyCall st now c) now rest

/-- Dispatch bookkeeping: `cur = best; t[cur].state = T_RUN;
t[cur].last = now; t[cur].startRun = now`. -/
def dispatchMark (st : OsState) (b now : Nat) : OsState :=
  { st with
      cur := b
      t := (modifyAt
        (fun tk => { tk with state := T_RUN, last := now % U16, startRun := now % U32 })
        b st.t) }

/-- The post-dispatch demotion `if (t[cur].state == T_RUN) t[cur].state
= T_READY`. -/
def demote (st : OsState) : OsState :=
  if (taskAt st st.cur).state = T_RUN then
    { st with t := modifyAt (fun tk => { tk with state := T_READY }) st.cur st.t }
  else st

/-- One iteration of the second variant's `run()` loop at clock value
`now`: sleep-expiry pass, selection, and — when a task is selected —
dispatch bookkeeping, the task body (as its list of API calls) and
demotion.  Returns the selected index. -/
def schedIter (st : OsState) (now : Nat) (calls : List ApiCall) :
    Option Nat × OsState :=
  let ts' := wakePass st.suspendFlags now st.t 0
  let st1 := { st with t := ts' }
  match selLoop2 ts' st.suspendFlags now with
  | none => (none, st1)
  | some b =>
    let st4 := demote (applyCalls (dispatchMark st1 b now) now calls)
    (some b, { st4 with ctxSw := (st4.ctxSw + 1) % U32 })

/-- A run of successive scheduler iterations; each step supplies the
clock value and the API calls of whichever task gets dispatched.
Returns the list of selected indices. -/
def runSteps (st : OsState) : List (Nat × List ApiCall) → List (Option Nat) × OsState
  | [] => ([], st)
  | (now, calls) :: rest =>
    let r := schedIter st now calls
    let rr := runSteps r.2 rest
    (r.1 :: rr.1, rr.2)

/-- A sequence of registrations (`period`, `priority` pairs; the name
argument has no state effect) applied in order, collecting results. -/
def addAll (st : OsState) : List (Nat × Nat) → List Int × OsState
  | [] => ([], st)
  | (p, pr) :: rest =>
    let r := add st p pr
    let rr := addAll r.2 rest
    (r.1 :: rr.1, rr.2)

/-- `PIN_SD_CS`. -/
def PIN_SD_CS : Nat := 4

/-- `PIN_ETH_CS`. -/
def PIN_ETH_CS : Nat := 10

/-- `class SPIMgr` state: the statically recorded current device pin. -/
structure Arb where
  dev : Nat
deriving DecidableEq

/-- A `digitalWrite(pin, level)` event; `true` is HIGH (deasserted),
`false` is LOW (asserted). -/
abbrev Wr := Nat × Bool

/-- `SPIMgr::sel(d)`: when the recorded device differs, deassert it,
assert `d` and record `d`; otherwise do nothing. -/
def sel (a : Arb) (d : Nat) : Arb × List Wr :=
  if a.dev ≠ d then (⟨d⟩, [(a.dev, true), (d, false)]) else (a, [])

/-- `SPIMgr::desel()`: drive both known chip-select pins HIGH; the
recorded device is not touched. -/
def desel (a : Arb) : Arb × List Wr :=
  (a, [(PIN_SD_CS, true), (PIN_ETH_CS, true)])

/-- An arbitrator operation. -/
inductive ArbOp where
  | sel (d : Nat)
  | desel
deriving DecidableEq

/-- One arbitrator step. -/
def arbStep (a : Arb) : ArbOp → Arb × List Wr
  | .sel d => sel a d
  | .desel => desel a

/-- A sequence of arbitrator calls with the concatenated write trace. -/
def arbRun (a : Arb) : List ArbOp → Arb × List Wr
  | [] => (a, [])
  | op :: ops =>
    let r := arbStep a op
    let rr := arbRun r.1 ops
    (rr.1, r.2 ++ rr.2)

/-- Pin levels after replaying a write trace over initial levels. -/
def applyWrites (pins : Nat → Bool) : List Wr → Nat → Bool
  | [] => pins
  | (p, l) :: ws => applyWrites (fun q => if q = p then l else pins q) ws

/-- The per-index eligibility of the dispatch decision: not
administratively suspended, and the selection-loop test holds. -/
def eligibleIdx (ts : List Task) (sus now i : Nat) : Bool :=
  !susBit sus i && eligB (ts.getD i task0) now

/-! ### Basic lemmas about array-slot update -/

theorem length_modifyAt (f : Task → Task) :
    ∀ (i : Nat) (ts : List Task), (modifyAt f i ts).length = ts.length
  | i, [] => by cases i <;> rfl
  | 0, _ :: _ => rfl
  | i + 1, tk :: rest => by
      simp only [modifyAt, List.length_cons, length_modifyAt f i rest]

theorem getD_modifyAt_self (f : Task → Task) :
    ∀ (i : Nat) (ts : List Task), i < ts.length →
      (modifyAt f i ts).getD i task0 = f (ts.getD i task0)
  | _, [], h => absurd h (by simp)
  | 0, tk :: rest, _ => rfl
  | i + 1, tk :: rest, h => by
      simp only [modifyAt, List.getD_cons_succ]
      exact getD_modifyAt_self f i rest (Nat.lt_of_succ_lt_succ h)

theorem getD_modifyAt_ne (f : Task → Task) :
    ∀ (i j : Nat) (ts : List Task), i ≠ j →
      (modifyAt f i ts).getD j task0 = ts.getD j task0
  | _, _, [], _ => by simp [modifyAt]
  | 0, 0, tk :: rest, h => absurd rfl h
  | 0, j + 1, tk :: rest, _ => by simp [modifyAt, List.getD_cons_succ]
  | i + 1, 0, tk :: rest, _ => by simp [modifyAt, List.getD_cons_zero]
  | i + 1, j + 1, tk :: rest, h => by
      simp only [modifyAt, List.getD_cons_succ]
      exact getD_modifyAt_ne f i j rest (fun hc => h (by rw [hc]))

/-! ### Claims C9 and C10: the bus arbitrator -/

/-- Claim C9: starting with a device other than `A`/`B` recorded, the
sequence `select(A); select(B); select(A)` produces exactly the write
trace deassert-prev/assert-A, deassert-A/assert-B, deassert-B/assert-A
— in particular exactly two assert transitions for `A`, the initial
one and a real reassert after `B`; a repeated `select(C); select(C)`
with `C` already recorded produces zero writes; and every select of a
device different from the recorded one first deasserts the previous
device and then asserts the new one. -/
theorem C9_arbitrator_select (a0 : Arb) (A B : Nat)
    (hAB : A ≠ B) (hA : a0.dev ≠ A) (hB : a0.dev ≠ B) :
    (arbRun a0 [.sel A, .sel B, .sel A]).2 =
      [(a0.dev, true), (A, false), (A, true), (B, false), (B, true), (A, false)] ∧
    (((arbRun a0 [.sel A, .sel B, .sel A]).2.filter
        (fun w => decide (w = (A, false)))).length = 2) ∧
    (∀ C : Nat, arbRun ⟨C⟩ [.sel C, .sel C] = (⟨C⟩, [])) ∧
    (∀ (a : Arb) (d : Nat), a.dev ≠ d →
        sel a d = (⟨d⟩, [(a.dev, true), (d, false)])) := by
  have h1 : sel a0 A = (⟨A⟩, [(a0.dev, true), (A, false)]) := by simp [sel, hA]
  have h2 : sel ⟨A⟩ B = (⟨B⟩, [(A, true), (B, false)]) := by simp [sel, hAB]
  have h3 : sel ⟨B⟩ A = (⟨A⟩, [(B, true), (A, false)]) := by simp [sel, Ne.symm hAB]
  have htr : (arbRun a0 [.sel A, .sel B, .sel A]).2 =
      [(a0.dev, true), (A, false), (A, true), (B, false), (B, true), (A, false)] := by
    simp [arbRun, arbStep, h1, h2, h3]
  refine ⟨htr, ?_, ?_, ?_⟩
  · rw [htr]
    simp [List.filter, Prod.mk.injEq, Ne.symm hAB]
  · intro C
    simp [arbRun, arbStep, sel]
  · intro a d hd
    simp [sel, hd]

/-- Claim C9, witness at `A = 4`, `B = 10` from recorded device `0`. -/
theorem C9_arbitrator_select_witness :
    (arbRun ⟨0⟩ [.sel 4, .sel 10, .sel 4]).2 =
      [(0, true), (4, false), (4, true), (10, false), (10, true), (4, false)] ∧
    (((arbRun (⟨0⟩ : Arb) [.sel 4, .sel 10, .sel 4]).2.filter
        (fun w => decide (w = (4, false)))).length = 2) ∧
    (∀ C : Nat, arbRun ⟨C⟩ [.sel C, .sel C] = (⟨C⟩, [])) ∧
    (∀ (a : Arb) (d : Nat), a.dev ≠ d →
        sel a d = (⟨d⟩, [(a.dev, true), (d, false)])) :=
  C9_arbitrator_select ⟨0⟩ 4 10 (by decide) (by decide) (by decide)

/-- Claim C10: `deselect()` drives both chip-select pins HIGH but does
not clear the recorded device, so `deselect(); select(d)` with `d`
already recorded performs no assert at all — every write in the trace
is a HIGH (deassert) write — and both known bus devices end
deasserted. -/
theorem C10_desel_keeps_record (a : Arb) (d : Nat) (hd : a.dev = d) :
    arbRun a [.desel, .sel d] = (a, [(PIN_SD_CS, true), (PIN_ETH_CS, true)]) ∧
    (∀ w ∈ (arbRun a [.desel, .sel d]).2, w.2 = true) ∧
    (∀ pins : Nat → Bool,
       applyWrites pins (arbRun a [.desel, .sel d]).2 PIN_SD_CS = true ∧
       applyWrites pins (arbRun a [.desel, .sel d]).2 PIN_ETH_CS = true) := by
  have hsel : sel a d = (a, []) := by simp [sel, hd]
  have htr : arbRun a [.desel, .sel d] =
      (a, [(PIN_SD_CS, true), (PIN_ETH_CS, true)]) := by
    simp [arbRun, arbStep, desel, hsel]
  refine ⟨htr, ?_, ?_⟩
  · rw [htr]
    intro w hw
    simp at hw
    rcases hw with h | h <;> rw [h]
  · intro pins
    rw [htr]
    constructor <;> simp [applyWrites, PIN_SD_CS, PIN_ETH_CS]

/-- Claim C10, witness at `d = 4` with `4` recorded. -/
theorem C10_desel_keeps_record_witness :
    arbRun ⟨4⟩ [.desel, .sel 4] = (⟨4⟩, [(PIN_SD_CS, true), (PIN_ETH_CS, true)]) ∧
    (∀ w ∈ (arbRun (⟨4⟩ : Arb) [.desel, .sel 4]).2, w.2 = true) ∧
    (∀ pins : Nat → Bool,
       applyWrites pins (arbRun (⟨4⟩ : Arb) [.desel, .sel 4]).2 PIN_SD_CS = true ∧
       applyWrites pins (arbRun (⟨4⟩ : Arb) [.desel, .sel 4]).2 PIN_ETH_CS = true) :=
  C10_desel_keeps_record ⟨4⟩ 4 (by decide)

/-! ### Claim C1: equal-priority tie-break (code bug in the second variant) -/

/-- An empty mailbox. -/
def mbox0 : Mailbox := ⟨0, List.replicate 8 0, 0, false⟩

/-- Failing input for claim C1: task 0 of the pair of equally-highest
priority, simultaneously eligible tasks. -/
def tkC1 : Task :=
  { period := 0, last := 0, state := T_READY, pri := 2, tid := 0,
    sleepUntil := 0, startRun := 0, message := mbox0 }

/-- Failing input for claim C1: a two-task table, both READY, both
priority 2, both past their (zero) period, nothing suspended. -/
def stC1 : OsState := ⟨[tkC1, { tkC1 with tid := 1 }], 0, 0, 0, 0, false⟩

/-- Claim C1 (code bug): on a table with tasks 0 and 1 simultaneously
eligible at the same, highest priority, the second variant's selection
(`pri >= maxPri`, lines 1090–1095) picks task 1 — the highest eligible
id — and so does its whole `run()` iteration, while the first
variant's selection (`priority > highestPriority`, lines 156–161)
picks the claimed lowest id 0. -/
theorem C1_tie_break_failing_input :
    eligibleIdx stC1.t 0 1 0 = true ∧
    eligibleIdx stC1.t 0 1 1 = true ∧
    (taskAt stC1 0).pri = 2 ∧ (taskAt stC1 1).pri = 2 ∧
    selLoop2 stC1.t 0 1 = some 1 ∧
    (schedIter stC1 1 []).1 = some 1 ∧
    selLoop1 stC1.t 0 1 = some 0 := by decide

/-! ### Claim C8: wrap-safety of the time comparisons (code bug) -/

/-- Failing input for claim C8 (sleep-expiry side): a single-task
system whose task is running at clock value `2^32 - 100` and calls
`sleep(200)`. -/
def stC8 : OsState :=
  ⟨[{ period := 0, last := (U32 - 100) % U16, state := T_RUN, pri := 2, tid := 0,
      sleepUntil := 0, startRun := U32 - 100, message := mbox0 }], 0, 0, 0, 0, false⟩

/-- Failing input for claim C8 (period side): a task whose 16-bit
`last` stamp was recorded at dispatch time `65537` (stored truncated
to `1`), with period `50`. -/
def tkC8 : Task :=
  { period := 50, last := 65537 % U16, state := T_READY, pri := 2, tid := 0,
    sleepUntil := 0, startRun := 0, message := mbox0 }

/-- Claim C8 (code bug): neither scheduler time comparison is
wrap-safe.  Sleep side: `sleep(200)` at `t0 = 2^32 - 100` stores the
wrapped wake-time `100`, and the absolute test `now >= sleepUntil`
already wakes the task one tick later (`now = 2^32 - 99`), after a
true elapsed time of 1 ms instead of 200.  Period side: with the
16-bit `last` stamp recorded at `65537` (stored as `1`), the 32-bit
subtraction `now - last` at `now = 65538` yields `65537`, so a task
whose true elapsed time is 1 ms passes a 50 ms period test. -/
theorem C8_time_comparisons_not_wrap_safe :
    (taskAt (sleep stC8 (U32 - 100) 200) 0).sleepUntil = 100 ∧
    (wakeStep (taskAt (sleep stC8 (U32 - 100) 200) 0) (U32 - 99)).state = T_READY ∧
    (U32 - 99) - (U32 - 100) = 1 ∧ U32 - 99 < (U32 - 100) + 200 ∧
    elapsed 65538 tkC8.last = 65537 ∧
    eligB tkC8 65538 = true ∧
    65538 - 65537 < tkC8.period := by decide

/-! ### Claim C5: send failure modes never touch the target mailbox -/

/-- Claim C5: `sendMessage` fails with the invalid-parameters code
`-1` when the target id is not a registered task, fails with `-1` when
the payload size exceeds 8 bytes, and fails with the queue-full code
`-2` when (the parameters being valid) the target's mailbox already
holds an undelivered message; in each failure case the entire state —
in particular the target's mailbox type, data, size and pending flag —
is returned unchanged, so a pending message is never overwritten. -/
theorem C5_send_failure_modes (st : OsState) (taskId msgType : Nat)
    (data : List Nat) (size : Nat) :
    (st.t.length ≤ taskId → sendMessage st taskId msgType data size = (-1, st)) ∧
    (8 < size → sendMessage st taskId msgType data size = (-1, st)) ∧
    (taskId < st.t.length → size ≤ 8 →
      (taskAt st taskId).message.pending = true →
      sendMessage st taskId msgType data size = (-2, st)) := by
  refine ⟨?_, ?_, ?_⟩
  · intro h
    simp only [sendMessage]
    rw [if_pos (Or.inl h)]
  · intro h
    simp only [sendMessage]
    rw [if_pos (Or.inr h)]
  · intro h1 h2 h3
    simp only [sendMessage]
    rw [if_neg (by omega), if_pos h3]

/-- State for the claim C5 witness: one registered task whose mailbox
holds an undelivered message. -/
def stW5 : OsState :=
  ⟨[{ period := 0, last := 0, state := T_READY, pri := 2, tid := 0,
      sleepUntil := 0, startRun := 0,
      message := ⟨7, List.replicate 8 0, 3, true⟩ }], 0, 0, 0, 0, false⟩

/-- Claim C5, witness: out-of-range id 1, oversized payload 9, and a
send to the pending mailbox of task 0 all fail without mutation. -/
theorem C5_send_failure_modes_witness :
    sendMessage stW5 1 0 [] 0 = (-1, stW5) ∧
    sendMessage stW5 0 0 [] 9 = (-1, stW5) ∧
    sendMessage stW5 0 5 [1] 1 = (-2, stW5) :=
  ⟨(C5_send_failure_modes stW5 1 0 [] 0).1 (by decide),
   (C5_send_failure_modes stW5 0 0 [] 9).2.1 (by decide),
   (C5_send_failure_modes stW5 0 5 [1] 1).2.2 (by decide) (by decide) (by decide)⟩

/-! ### Claim C6: receive semantics -/

/-- Claim C6: `receiveMessage` on the current task's own mailbox
returns 0 leaving the state untouched when nothing is pending; when a
message of stored size `s` is pending it returns `min maxSize s`,
hands the caller the type tag and exactly `min maxSize s` payload
bytes, and clears only the pending flag — so an immediately following
receive returns 0. -/
theorem C6_receive_spec (st : OsState) (maxSize : Nat)
    (hcur : st.cur < st.t.length) (hmax : maxSize < 256) :
    ((taskAt st st.cur).message.pending = false →
       receiveMessage st maxSize = (0, none, st)) ∧
    ((taskAt st st.cur).message.pending = true →
       receiveMessage st maxSize =
         (min maxSize (taskAt st st.cur).message.msize,
          some ((taskAt st st.cur).message.mtype,
            (taskAt st st.cur).message.data.take
              (min maxSize (taskAt st st.cur).message.msize)),
          { st with t := (modifyAt
              (fun tk => { tk with message := { tk.message with pending := false } })
              st.cur st.t) }) ∧
       (receiveMessage (receiveMessage st maxSize).2.2 maxSize).1 = 0) := by
  constructor
  · intro h
    simp only [receiveMessage, taskAt] at *
    rw [h]
    rfl
  · intro h
    have heq : receiveMessage st maxSize =
        (min maxSize (taskAt st st.cur).message.msize,
         some ((taskAt st st.cur).message.mtype,
           (taskAt st st.cur).message.data.take
             (min maxSize (taskAt st st.cur).message.msize)),
         { st with t := (modifyAt
             (fun tk => { tk with message := { tk.message with pending := false } })
             st.cur st.t) }) := by
      simp only [receiveMessage, taskAt] at *
      rw [h]
      simp [Nat.mod_eq_of_lt hmax]
    refine ⟨heq, ?_⟩
    rw [heq]
    have hpend : (taskAt { st with t := (modifyAt
        (fun tk => { tk with message := { tk.message with pending := false } })
        st.cur st.t) } st.cur).message.pending = false := by
      simp only [taskAt]
      rw [getD_modifyAt_self _ _ _ hcur]
    simp only [receiveMessage]
    rw [hpend]
    rfl

/-- State for the claim C6 witness: current task 0 has a pending
3-byte message of type 7 with payload bytes 11, 22, 33. -/
def stW6 : OsState :=
  ⟨[{ period := 0, last := 0, state := T_READY, pri := 2, tid := 0,
      sleepUntil := 0, startRun := 0,
      message := ⟨7, [11, 22, 33, 0, 0, 0, 0, 0], 3, true⟩ }], 0, 0, 0, 0, false⟩

/-- Claim C6, witness: receiving with a 2-byte buffer copies 2 of the
3 stored bytes, clears pending, and a second receive returns 0. -/
theorem C6_receive_spec_witness :
    ((taskAt stW6 stW6.cur).message.pending = false →
       receiveMessage stW6 2 = (0, none, stW6)) ∧
    ((taskAt stW6 stW6.cur).message.pending = true →
       receiveMessage stW6 2 =
         (min 2 (taskAt stW6 stW6.cur).message.msize,
          some ((taskAt stW6 stW6.cur).message.mtype,
            (taskAt stW6 stW6.cur).message.data.take
              (min 2 (taskAt stW6 stW6.cur).message.msize)),
          { stW6 with t := (modifyAt
              (fun tk => { tk with message := { tk.message with pending := false } })
              stW6.cur stW6.t) }) ∧
       (receiveMessage (receiveMessage stW6 2).2.2 2).1 = 0) :=
  C6_receive_spec stW6 2 (by decide) (by decide)

/-! ### Claim C4: registration up to capacity -/

theorem addAll_full (reqs : List (Nat × Nat)) (st : OsState)
    (h : MAX_TASKS ≤ st.t.length) :
    addAll st reqs = (List.replicate reqs.length (-1), st) := by
  induction reqs with
  | nil => rfl
  | cons hd rest ih =>
    obtain ⟨p, pr⟩ := hd
    have hadd : add st p pr = (-1, st) := by
      simp only [add]
      rw [if_pos h]
    simp only [addAll, hadd, ih, List.length_cons, List.replicate_succ]

theorem addAll_spec (reqs : List (Nat × Nat)) :
    ∀ (st : OsState), st.t.length ≤ MAX_TASKS →
      (addAll st reqs).1 =
        (List.range' st.t.length (min reqs.length (MAX_TASKS - st.t.length))).map
            (fun j => (j : Int)) ++
          List.replicate (reqs.length - (MAX_TASKS - st.t.length)) (-1) ∧
      (addAll st reqs).2 = (addAll st (reqs.take (MAX_TASKS - st.t.length))).2 := by
  induction reqs with
  | nil =>
    intro st _
    simp [addAll]
  | cons hd rest ih =>
    intro st h
    obtain ⟨p, pr⟩ := hd
    rcases Nat.lt_or_ge st.t.length MAX_TASKS with hlt | hge
    · have hnot : ¬ st.t.length ≥ MAX_TASKS := Nat.not_le.mpr hlt
      have h1 : (add st p pr).1 = (st.t.length : Int) := by
        simp only [add]
        rw [if_neg hnot]
      have hlen : (add st p pr).2.t.length = st.t.length + 1 := by
        simp only [add]
        rw [if_neg hnot]
        simp
      have hih2 := ih (add st p pr).2 (by omega)
      rw [hlen] at hih2
      have hmin : min (rest.length + 1) (MAX_TASKS - st.t.length) =
          min rest.length (MAX_TASKS - (st.t.length + 1)) + 1 := by
        simp only [MAX_TASKS] at *
        omega
      have hrep : rest.length + 1 - (MAX_TASKS - st.t.length) =
          rest.length - (MAX_TASKS - (st.t.length + 1)) := by
        simp only [MAX_TASKS] at *
        omega
      have htk : MAX_TASKS - st.t.length =
          (MAX_TASKS - (st.t.length + 1)) + 1 := by
        simp only [MAX_TASKS] at *
        omega
      constructor
      · show (add st p pr).1 :: (addAll (add st p pr).2 rest).1 = _
        rw [hih2.1, h1, List.length_cons, hmin, hrep, List.range'_succ]
        simp
      · show (addAll (add st p pr).2 rest).2 = _
        rw [htk, List.take_succ_cons]
        show _ = (addAll (add st p pr).2 (rest.take (MAX_TASKS - (st.t.length + 1)))).2
        exact hih2.2
    · have hst : addAll st ((p, pr) :: rest) =
          (List.replicate ((p, pr) :: rest).length (-1), st) := addAll_full _ _ hge
      have h6 : st.t.length = MAX_TASKS := Nat.le_antisymm h hge
      rw [hst]
      constructor
      · simp [h6]
      · simp [h6, addAll]

/-- Claim C4: from the fresh system, any sequence of registrations
returns the strictly increasing ids `0, 1, ..., 5` for its first
`MAX_TASKS = 6` calls and `-1` (capacity exceeded) for every later
call, the final state is exactly the state after the first 6 calls
(so the failing calls never mutate anything), and in general a
registration against a full table returns `-1` with the state — task
table, count and all descriptors — unchanged. -/
theorem C4_registration (reqs : List (Nat × Nat)) :
    (addAll initState reqs).1 =
      (List.range (min reqs.length MAX_TASKS)).map (fun j => (j : Int)) ++
        List.replicate (reqs.length - MAX_TASKS) (-1) ∧
    (addAll initState reqs).2 = (addAll initState (reqs.take MAX_TASKS)).2 ∧
    (∀ (st : OsState) (p pr : Nat), MAX_TASKS ≤ st.t.length →
        add st p pr = (-1, st)) := by
  have h := addAll_spec reqs initState (by decide)
  refine ⟨?_, ?_, ?_⟩
  · rw [h.1]
    simp [initState, List.range_eq_range']
  · rw [h.2]
    rfl
  · intro st p pr hfull
    simp only [add]
    rw [if_pos hfull]

/-- Eight registration requests for the claim C4 witness. -/
def reqs8 : List (Nat × Nat) :=
  [(50, 3), (500, 1), (100, 1), (1000, 3), (10, 2), (20, 2), (30, 1), (40, 2)]

/-- Claim C4, witness: of eight registrations the first six return ids
0–5, the last two return `-1`, the final state equals the state after
six calls, and a further registration on the full table is rejected
without mutation. -/
theorem C4_registration_witness :
    (addAll initState reqs8).1 = [0, 1, 2, 3, 4, 5, -1, -1] ∧
    (addAll initState reqs8).2 = (addAll initState (reqs8.take MAX_TASKS)).2 ∧
    add (addAll initState reqs8).2 9 1 = (-1, (addAll initState reqs8).2) := by
  refine ⟨?_, (C4_registration reqs8).2.1,
          (C4_registration reqs8).2.2 _ 9 1 (by decide)⟩
  rw [(C4_registration reqs8).1]
  decide

/-! ### Characterisation of the two selection loops -/

theorem scanGT_stay (sus now p : Nat) :
    ∀ (ts : List Task) (i0 r : Nat),
      (∀ k, k < ts.length → susBit sus (i0 + k) = false →
         eligB (ts.getD k task0) now = true → (ts.getD k task0).pri ≤ p) →
      scanBest cmpGT sus now ts i0 (some r) p = some r := by
  intro ts
  induction ts with
  | nil => intros; rfl
  | cons tk rest ih =>
    intro i0 r hb
    have hshift : ∀ k, k < rest.length → susBit sus (i0 + 1 + k) = false →
        eligB (rest.getD k task0) now = true → (rest.getD k task0).pri ≤ p := by
      intro k hk h1 h2
      have he : i0 + 1 + k = i0 + (k + 1) := by omega
      have := hb (k + 1) (by simpa using Nat.succ_lt_succ hk)
      rw [he] at h1
      simpa [List.getD_cons_succ] using this h1 (by simpa [List.getD_cons_succ] using h2)
    simp only [scanBest]
    cases hs : susBit sus i0 with
    | true => simp only [if_pos rfl]; exact ih (i0 + 1) r hshift
    | false =>
      simp only [if_neg Bool.false_ne_true]
      cases he : eligB tk now with
      | false =>
        simp only [if_neg Bool.false_ne_true]
        exact ih (i0 + 1) r hshift
      | true =>
        simp only [if_pos rfl]
        have hle : tk.pri ≤ p := by
          simpa using hb 0 (by simp) (by simpa using hs) (by simpa using he)
        have hcmp : cmpGT tk.pri p = false := by
          simp [cmpGT, Nat.not_lt.mpr hle]
        rw [hcmp]
        simp only [if_neg Bool.false_ne_true]
        exact ih (i0 + 1) r hshift

theorem scanGE_stay (sus now p : Nat) :
    ∀ (ts : List Task) (i0 r : Nat),
      (∀ k, k < ts.length → susBit sus (i0 + k) = false →
         eligB (ts.getD k task0) now = true → (ts.getD k task0).pri < p) →
      scanBest cmpGE sus now ts i0 (some r) p = some r := by
  intro ts
  induction ts with
  | nil => intros; rfl
  | cons tk rest ih =>
    intro i0 r hb
    have hshift : ∀ k, k < rest.length → susBit sus (i0 + 1 + k) = false →
        eligB (rest.getD k task0) now = true → (rest.getD k task0).pri < p := by
      intro k hk h1 h2
      have he : i0 + 1 + k = i0 + (k + 1) := by omega
      have := hb (k + 1) (by simpa using Nat.succ_lt_succ hk)
      rw [he] at h1
      simpa [List.getD_cons_succ] using this h1 (by simpa [List.getD_cons_succ] using h2)
    simp only [scanBest]
    cases hs : susBit sus i0 with
    | true => simp only [if_pos rfl]; exact ih (i0 + 1) r hshift
    | false =>
      simp only [if_neg Bool.false_ne_true]
      cases he : eligB tk now with
      | false =>
        simp only [if_neg Bool.false_ne_true]
        exact ih (i0 + 1) r hshift
      | true =>
        simp only [if_pos rfl]
        have hlt : tk.pri < p := by
          simpa using hb 0 (by simp) (by simpa using hs) (by simpa using he)
        have hcmp : cmpGE tk.pri p = false := by
          simp [cmpGE, Nat.not_le.mpr hlt]
        rw [hcmp]
        simp only [if_neg Bool.false_ne_true]
        exact ih (i0 + 1) r hshift

theorem scanGT_first (sus now p : Nat) :
    ∀ (ts : List Task) (f i0 : Nat) (best : Option Nat) (m : Nat),
      f < ts.length →
      susBit sus (i0 + f) = false →
      eligB (ts.getD f task0) now = true →
      (ts.getD f task0).pri = p →
      (∀ k, k < f → susBit sus (i0 + k) = false →
         eligB (ts.getD k task0) now = true → (ts.getD k task0).pri < p) →
      (∀ k, k < ts.length → susBit sus (i0 + k) = false →
         eligB (ts.getD k task0) now = true → (ts.getD k task0).pri ≤ p) →
      m < p →
      scanBest cmpGT sus now ts i0 best m = some (i0 + f) := by
  intro ts
  induction ts with
  | nil => intro f _ _ _ hf; exact absurd hf (by simp)
  | cons tk rest ih =>
    intro f i0 best m hf hsf hef hpf hbefore hbound hm
    have hshift : ∀ k, k < rest.length → susBit sus (i0 + 1 + k) = false →
        eligB (rest.getD k task0) now = true → (rest.getD k task0).pri ≤ p := by
      intro k hk h1 h2
      have he : i0 + 1 + k = i0 + (k + 1) := by omega
      have := hbound (k + 1) (by simpa using Nat.succ_lt_succ hk)
      rw [he] at h1
      simpa [List.getD_cons_succ] using this h1 (by simpa [List.getD_cons_succ] using h2)
    simp only [scanBest]
    match f, hf with
    | 0, _ =>
      have hs0 : susBit sus i0 = false := by simpa using hsf
      have he0 : eligB tk now = true := by simpa using hef
      have hp0 : tk.pri = p := by simpa using hpf
      rw [hs0]
      simp only [if_neg Bool.false_ne_true]
      rw [he0]
      simp only [if_pos rfl]
      have hcmp : cmpGT tk.pri m = true := by simp [cmpGT, hp0, hm]
      rw [hcmp]
      simp only [if_pos rfl]
      rw [hp0]
      exact scanGT_stay sus now p rest (i0 + 1) i0 hshift
    | f' + 1, hf2 =>
      have hf' : f' < rest.length := by
        have : f' + 1 < rest.length + 1 := by simpa using hf2
        omega
      have hsf' : susBit sus (i0 + 1 + f') = false := by
        have he : i0 + 1 + f' = i0 + (f' + 1) := by omega
        rw [he]; exact hsf
      have hef' : eligB (rest.getD f' task0) now = true := by
        simpa [List.getD_cons_succ] using hef
      have hpf' : (rest.getD f' task0).pri = p := by
        simpa [List.getD_cons_succ] using hpf
      have hbefore' : ∀ k, k < f' → susBit sus (i0 + 1 + k) = false →
          eligB (rest.getD k task0) now = true → (rest.getD k task0).pri < p := by
        intro k hk h1 h2
        have he : i0 + 1 + k = i0 + (k + 1) := by omega
        have := hbefore (k + 1) (Nat.succ_lt_succ hk)
        rw [he] at h1
        simpa [List.getD_cons_succ] using this h1 (by simpa [List.getD_cons_succ] using h2)
      have hres : ∀ (best' : Option Nat) (m' : Nat), m' < p →
          scanBest cmpGT sus now rest (i0 + 1) best' m' = some (i0 + (f' + 1)) := by
        intro best' m' hm'
        have := ih f' (i0 + 1) best' m' hf' hsf' hef' hpf' hbefore' hshift hm'
        rwa [show i0 + 1 + f' = i0 + (f' + 1) by omega] at this
      cases hs : susBit sus i0 with
      | true =>
        simp only [if_pos rfl]
        exact hres best m hm
      | false =>
        simp only [if_neg Bool.false_ne_true]
        cases he : eligB tk now with
        | false =>
          simp only [if_neg Bool.false_ne_true]
          exact hres best m hm
        | true =>
          simp only [if_pos rfl]
          have hlt0 : tk.pri < p := by
            simpa using hbefore 0 (Nat.succ_pos f') (by simpa using hs)
              (by simpa using he)
          cases hc : cmpGT tk.pri m with
          | true =>
            simp only [if_pos rfl]
            exact hres (some i0) tk.pri hlt0
          | false =>
            simp only [if_neg Bool.false_ne_true]
            exact hres best m hm

theorem scanGE_last (sus now p : Nat) :
    ∀ (ts : List Task) (g i0 : Nat) (best : Option Nat) (m : Nat),
      g < ts.length →
      susBit sus (i0 + g) = false →
      eligB (ts.getD g task0) now = true →
      (ts.getD g task0).pri = p →
      (∀ k, g < k → k < ts.length → susBit sus (i0 + k) = false →
         eligB (ts.getD k task0) now = true → (ts.getD k task0).pri < p) →
      (∀ k, k < ts.length → susBit sus (i0 + k) = false →
         eligB (ts.getD k task0) now = true → (ts.getD k task0).pri ≤ p) →
      m ≤ p →
      scanBest cmpGE sus now ts i0 best m = some (i0 + g) := by
  intro ts
  induction ts with
  | nil => intro g _ _ _ hg; exact absurd hg (by simp)
  | cons tk rest ih =>
    intro g i0 best m hg hsg heg hpg hafter hbound hm
    simp only [scanBest]
    match g, hg with
    | 0, _ =>
      have hs0 : susBit sus i0 = false := by simpa using hsg
      have he0 : eligB tk now = true := by simpa using heg
      have hp0 : tk.pri = p := by simpa using hpg
      have hafter' : ∀ k, k < rest.length → susBit sus (i0 + 1 + k) = false →
          eligB (rest.getD k task0) now = true → (rest.getD k task0).pri < p := by
        intro k hk h1 h2
        have he : i0 + 1 + k = i0 + (k + 1) := by omega
        have := hafter (k + 1) (Nat.succ_pos k) (by simpa using Nat.succ_lt_succ hk)
        rw [he] at h1
        simpa [List.getD_cons_succ] using this h1 (by simpa [List.getD_cons_succ] using h2)
      rw [hs0]
      simp only [if_neg Bool.false_ne_true]
      rw [he0]
      simp only [if_pos rfl]
      have hcmp : cmpGE tk.pri m = true := by simp [cmpGE, hp0, hm]
      rw [hcmp]
      simp only [if_pos rfl]
      rw [hp0]
      exact scanGE_stay sus now p rest (i0 + 1) i0 hafter'
    | g' + 1, hg2 =>
      have hg' : g' < rest.length := by
        have : g' + 1 < rest.length + 1 := by simpa using hg2
        omega
      have hsg' : susBit sus (i0 + 1 + g') = false := by
        have he : i0 + 1 + g' = i0 + (g' + 1) := by omega
        rw [he]; exact hsg
      have heg' : eligB (rest.getD g' task0) now = true := by
        simpa [List.getD_cons_succ] using heg
      have hpg' : (rest.getD g' task0).pri = p := by
        simpa [List.getD_cons_succ] using hpg
      have hafter' : ∀ k, g' < k → k < rest.length → susBit sus (i0 + 1 + k) = false →
          eligB (rest.getD k task0) now = true → (rest.getD k task0).pri < p := by
        intro k hgk hk h1 h2
        have he : i0 + 1 + k = i0 + (k + 1) := by omega
        have := hafter (k + 1) (Nat.succ_lt_succ hgk) (by simpa using Nat.succ_lt_succ hk)
        rw [he] at h1
        simpa [List.getD_cons_succ] using this h1 (by simpa [List.getD_cons_succ] using h2)
      have hbound' : ∀ k, k < rest.length → susBit sus (i0 + 1 + k) = false →
          eligB (rest.getD k task0) now = true → (rest.getD k task0).pri ≤ p := by
        intro k hk h1 h2
        have he : i0 + 1 + k = i0 + (k + 1) := by omega
        have := hbound (k + 1) (by simpa using Nat.succ_lt_succ hk)
        rw [he] at h1
        simpa [List.getD_cons_succ] using this h1 (by simpa [List.getD_cons_succ] using h2)
      have hres : ∀ (best' : Option Nat) (m' : Nat), m' ≤ p →
          scanBest cmpGE sus now rest (i0 + 1) best' m' = some (i0 + (g' + 1)) := by
        intro best' m' hm'
        have := ih g' (i0 + 1) best' m' hg' hsg' heg' hpg' hafter' hbound' hm'
        rwa [show i0 + 1 + g' = i0 + (g' + 1) by omega] at this
      cases hs : susBit sus i0 with
      | true =>
        simp only [if_pos rfl]
        exact hres best m hm
      | false =>
        simp only [if_neg Bool.false_ne_true]
        cases he : eligB tk now with
        | false =>
          simp only [if_neg Bool.false_ne_true]
          exact hres best m hm
        | true =>
          simp only [if_pos rfl]
          have hle0 : tk.pri ≤ p := by
            simpa using hbound 0 (by simp) (by simpa using hs)
              (by simpa using he)
          cases hc : cmpGE tk.pri m with
          | true =>
            simp only [if_pos rfl]
            exact hres (some i0) tk.pri hle0
          | false =>
            simp only [if_neg Bool.false_ne_true]
            exact hres best m hm

theorem scanBest_some (cmp : Nat → Nat → Bool) (sus now : Nat) :
    ∀ (ts : List Task) (i0 : Nat) (best : Option Nat) (m r : Nat),
      scanBest cmp sus now ts i0 best m = some r →
      best = some r ∨
      ∃ k, k < ts.length ∧ r = i0 + k ∧ susBit sus (i0 + k) = false ∧
        eligB (ts.getD k task0) now = true := by
  intro ts
  induction ts with
  | nil => intro i0 best m r h; exact Or.inl h
  | cons tk rest ih =>
    intro i0 best m r h
    have shiftk : ∀ k, k < rest.length → r = i0 + 1 + k →
        susBit sus (i0 + 1 + k) = false → eligB (rest.getD k task0) now = true →
        ∃ k', k' < (tk :: rest).length ∧ r = i0 + k' ∧ susBit sus (i0 + k') = false ∧
          eligB ((tk :: rest).getD k' task0) now = true := by
      intro k hk hr h1 h2
      refine ⟨k + 1, by simpa using Nat.succ_lt_succ hk, by omega, ?_, ?_⟩
      · rwa [show i0 + (k + 1) = i0 + 1 + k by omega]
      · simpa [List.getD_cons_succ] using h2
    simp only [scanBest] at h
    by_cases hs : susBit sus i0 = true
    · rw [hs] at h
      simp only [if_pos rfl] at h
      rcases ih (i0 + 1) best m r h with h' | ⟨k, hk, hr, h1, h2⟩
      · exact Or.inl h'
      · exact Or.inr (shiftk k hk hr h1 h2)
    · have hs' : susBit sus i0 = false := by
        cases hsb : susBit sus i0
        · rfl
        · exact absurd hsb hs
      rw [hs'] at h
      simp only [if_neg Bool.false_ne_true] at h
      by_cases he : eligB tk now = true
      · rw [he] at h
        simp only [if_pos rfl] at h
        cases hc : cmp tk.pri m with
        | true =>
          rw [hc] at h
          simp only [if_pos rfl] at h
          rcases ih (i0 + 1) (some i0) tk.pri r h with h' | ⟨k, hk, hr, h1, h2⟩
          · refine Or.inr ⟨0, by simp, ?_, by simpa using hs', by simpa using he⟩
            have : i0 = r := Option.some.inj h'
            omega
          · exact Or.inr (shiftk k hk hr h1 h2)
        | false =>
          rw [hc] at h
          simp only [if_neg Bool.false_ne_true] at h
          rcases ih (i0 + 1) best m r h with h' | ⟨k, hk, hr, h1, h2⟩
          · exact Or.inl h'
          · exact Or.inr (shiftk k hk hr h1 h2)
      · have he' : eligB tk now = false := by
          cases heb : eligB tk now
          · rfl
          · exact absurd heb he
        rw [he'] at h
        simp only [if_neg Bool.false_ne_true] at h
        rcases ih (i0 + 1) best m r h with h' | ⟨k, hk, hr, h1, h2⟩
        · exact Or.inl h'
        · exact Or.inr (shiftk k hk hr h1 h2)

/-! ### Claim C2: the two variants' tie-break rules differ -/

/-- Claim C2: whenever at least two tasks (`i < j`) are simultaneously
eligible at the same priority `p`, `p` being the highest priority of
any eligible task (and positive, since the first variant never selects
priority 0), the first variant's selection loop returns the
first-found candidate — the lowest index `l` holding the maximal
priority, with `l ≤ i` — while the second variant's selection loop
returns the last-found candidate — the highest such index `g`, with
`j ≤ g` — and in particular the two `run()` selection functions
disagree on this input. -/
theorem C2_tie_break_variants_differ (ts : List Task) (sus now p i j : Nat)
    (hij : i < j) (hjlen : j < ts.length)
    (hsi : susBit sus i = false) (hsj : susBit sus j = false)
    (hei : eligB (ts.getD i task0) now = true)
    (hej : eligB (ts.getD j task0) now = true)
    (hpi : (ts.getD i task0).pri = p) (hpj : (ts.getD j task0).pri = p)
    (hmax : ∀ k, k < ts.length → susBit sus k = false →
        eligB (ts.getD k task0) now = true → (ts.getD k task0).pri ≤ p)
    (hp : 0 < p) :
    ∃ l g, selLoop1 ts sus now = some l ∧ selLoop2 ts sus now = some g ∧
      l ≤ i ∧ j ≤ g ∧ l < g ∧
      susBit sus l = false ∧ eligB (ts.getD l task0) now = true ∧
      (ts.getD l task0).pri = p ∧
      susBit sus g = false ∧ eligB (ts.getD g task0) now = true ∧
      (ts.getD g task0).pri = p ∧
      selLoop1 ts sus now ≠ selLoop2 ts sus now := by
  have hilen : i < ts.length := Nat.lt_trans hij hjlen
  have hex : ∃ k, k < ts.length ∧ susBit sus k = false ∧
      eligB (ts.getD k task0) now = true ∧ (ts.getD k task0).pri = p :=
    ⟨i, hilen, hsi, hei, hpi⟩
  obtain ⟨hll, hsl, hel, hpl⟩ := Nat.find_spec hex
  have hli : Nat.find hex ≤ i := Nat.find_min' hex ⟨hilen, hsi, hei, hpi⟩
  have hbefore : ∀ k, k < Nat.find hex → susBit sus k = false →
      eligB (ts.getD k task0) now = true → (ts.getD k task0).pri < p := by
    intro k hk h1 h2
    have hklen : k < ts.length := Nat.lt_trans (Nat.lt_of_lt_of_le hk hli) hilen
    have hne : (ts.getD k task0).pri ≠ p := by
      intro hc
      exact Nat.find_min hex hk ⟨hklen, h1, h2, hc⟩
    exact Nat.lt_of_le_of_ne (hmax k hklen h1 h2) hne
  have h1 : selLoop1 ts sus now = some (Nat.find hex) := by
    have := scanGT_first sus now p ts (Nat.find hex) 0 none 0 hll
      (by simpa using hsl) hel hpl
      (by intro k hk hb he; simpa using hbefore k hk (by simpa using hb) he)
      (by intro k hk hb he; simpa using hmax k hk (by simpa using hb) he) hp
    simpa [selLoop1] using this
  have hPj : j < ts.length ∧ susBit sus j = false ∧
      eligB (ts.getD j task0) now = true ∧ (ts.getD j task0).pri = p :=
    ⟨hjlen, hsj, hej, hpj⟩
  have hjle : j ≤ ts.length := Nat.le_of_lt hjlen
  obtain ⟨hgl, hsg, heg, hpg⟩ :=
    Nat.findGreatest_spec (P := fun k => k < ts.length ∧ susBit sus k = false ∧
      eligB (ts.getD k task0) now = true ∧ (ts.getD k task0).pri = p) hjle hPj
  have hjg : j ≤ Nat.findGreatest (fun k => k < ts.length ∧ susBit sus k = false ∧
      eligB (ts.getD k task0) now = true ∧ (ts.getD k task0).pri = p) ts.length :=
    Nat.le_findGreatest hjle hPj
  have hafter : ∀ k, Nat.findGreatest (fun k => k < ts.length ∧ susBit sus k = false ∧
      eligB (ts.getD k task0) now = true ∧ (ts.getD k task0).pri = p) ts.length < k →
      k < ts.length → susBit sus k = false →
      eligB (ts.getD k task0) now = true → (ts.getD k task0).pri < p := by
    intro k hgk hklen h1 h2
    have hne : (ts.getD k task0).pri ≠ p := by
      intro hc
      exact Nat.findGreatest_is_greatest hgk (Nat.le_of_lt hklen) ⟨hklen, h1, h2, hc⟩
    exact Nat.lt_of_le_of_ne (hmax k hklen h1 h2) hne
  have h2 : selLoop2 ts sus now = some (Nat.findGreatest (fun k => k < ts.length ∧
      susBit sus k = false ∧ eligB (ts.getD k task0) now = true ∧
      (ts.getD k task0).pri = p) ts.length) := by
    have := scanGE_last sus now p ts (Nat.findGreatest (fun k => k < ts.length ∧
        susBit sus k = false ∧ eligB (ts.getD k task0) now = true ∧
        (ts.getD k task0).pri = p) ts.length) 0 none 0 hgl
      (by simpa using hsg) heg hpg
      (by intro k hgk hk hb he; simpa using hafter k hgk hk (by simpa using hb) he)
      (by intro k hk hb he; simpa using hmax k hk (by simpa using hb) he)
      (Nat.zero_le p)
    simpa [selLoop2] using this
  refine ⟨_, _, h1, h2, hli, hjg, by omega, hsl, hel, hpl, hsg, heg, hpg, ?_⟩
  rw [h1, h2]
  intro hc
  have := Option.some.inj hc
  omega

/-- Table for the claim C2 witness: tasks 0 and 1 both READY at
priority 2 with period 0. -/
def tsW2 : List Task :=
  [{ period := 0, last := 0, state := T_READY, pri := 2, tid := 0,
     sleepUntil := 0, startRun := 0, message := mbox0 },
   { period := 0, last := 0, state := T_READY, pri := 2, tid := 1,
     sleepUntil := 0, startRun := 0, message := mbox0 }]

/-- Claim C2, witness: on the two-task tied table the two selection
loops pick the first-found and last-found candidate respectively and
disagree. -/
theorem C2_tie_break_variants_differ_witness :
    ∃ l g, selLoop1 tsW2 0 1 = some l ∧ selLoop2 tsW2 0 1 = some g ∧
      l ≤ 0 ∧ 1 ≤ g ∧ l < g ∧
      susBit 0 l = false ∧ eligB (tsW2.getD l task0) 1 = true ∧
      (tsW2.getD l task0).pri = 2 ∧
      susBit 0 g = false ∧ eligB (tsW2.getD g task0) 1 = true ∧
      (tsW2.getD g task0).pri = 2 ∧
      selLoop1 tsW2 0 1 ≠ selLoop2 tsW2 0 1 :=
  C2_tie_break_variants_differ tsW2 0 1 2 0 1 (by decide) (by decide)
    (by decide) (by decide) (by decide) (by decide) (by decide) (by decide)
    (by decide) (by decide)

/-! ### Preservation lemmas: a WAITING task with an unexpired wake-time
stays WAITING through a whole scheduler iteration -/

theorem length_wakePass (sus now : Nat) :
    ∀ (ts : List Task) (i0 : Nat), (wakePass sus now ts i0).length = ts.length
  | [], _ => rfl
  | tk :: rest, i0 => by
      simp only [wakePass, List.length_cons, length_wakePass sus now rest (i0 + 1)]

theorem getD_wakePass (sus now : Nat) :
    ∀ (ts : List Task) (i0 k : Nat), k < ts.length →
      (wakePass sus now ts i0).getD k task0 =
        if susBit sus (i0 + k) then ts.getD k task0
        else wakeStep (ts.getD k task0) now := by
  intro ts
  induction ts with
  | nil => intro i0 k h; exact absurd h (by simp)
  | cons tk rest ih =>
    intro i0 k h
    cases k with
    | zero => simp [wakePass]
    | succ k' =>
      have hk' : k' < rest.length := by simpa using Nat.lt_of_succ_lt_succ h
      simp only [wakePass, List.getD_cons_succ]
      rw [ih (i0 + 1) k' hk', show i0 + 1 + k' = i0 + (k' + 1) by omega]

theorem applyCall_preserves_wait (st : OsState) (now : Nat) (c : ApiCall) (i : Nat)
    (hcur : st.cur ≠ i) (hw : (taskAt st i).state = T_WAIT) :
    (taskAt (applyCall st now c) i).state = T_WAIT ∧
    (taskAt (applyCall st now c) i).sleepUntil = (taskAt st i).sleepUntil ∧
    (applyCall st now c).cur = st.cur ∧
    (applyCall st now c).t.length = st.t.length := by
  have hsame : ∀ (st' : OsState), st'.t = st.t → st'.cur = st.cur →
      (taskAt st' i).state = T_WAIT ∧
      (taskAt st' i).sleepUntil = (taskAt st i).sleepUntil ∧
      st'.cur = st.cur ∧ st'.t.length = st.t.length := by
    intro st' h1 h2
    refine ⟨?_, ?_, h2, ?_⟩
    · simp only [taskAt, h1]
      exact hw
    · simp only [taskAt, h1]
    · rw [h1]
  have hmod : ∀ (st' : OsState) (f : Task → Task) (j : Nat), j ≠ i →
      st'.t = modifyAt f j st.t → st'.cur = st.cur →
      (taskAt st' i).state = T_WAIT ∧
      (taskAt st' i).sleepUntil = (taskAt st i).sleepUntil ∧
      st'.cur = st.cur ∧ st'.t.length = st.t.length := by
    intro st' f j hj h1 h2
    refine ⟨?_, ?_, h2, ?_⟩
    · simp only [taskAt, h1]
      rw [getD_modifyAt_ne _ _ _ _ hj]
      exact hw
    · simp only [taskAt, h1]
      rw [getD_modifyAt_ne _ _ _ _ hj]
    · rw [h1, length_modifyAt]
  cases c with
  | sleepA ms =>
    exact hmod (applyCall st now (.sleepA ms)) _ st.cur hcur rfl rfl
  | suspendA id =>
    simp only [applyCall, suspendTask]
    rcases Nat.lt_or_ge id st.t.length with hlt | hge
    · rw [if_pos hlt]
      by_cases hstate : (taskAt st id).state ≠ T_WAIT
      · have hne : id ≠ i := by
          intro hc
          rw [hc] at hstate
          exact hstate hw
        rw [if_pos hstate]
        exact hmod _ _ _ hne rfl rfl
      · rw [if_neg hstate]
        exact hsame _ rfl rfl
    · rw [if_neg (Nat.not_lt.mpr hge)]
      exact hsame _ rfl rfl
  | resumeA id =>
    simp only [applyCall, resumeTask]
    rcases Nat.lt_or_ge id st.t.length with hlt | hge
    · rw [if_pos hlt]
      by_cases hstate : (taskAt st id).state = T_SUSPENDED
      · have hne : id ≠ i := by
          intro hc
          rw [hc, hw] at hstate
          exact absurd hstate (by decide)
        rw [if_pos hstate]
        exact hmod _ _ _ hne rfl rfl
      · rw [if_neg hstate]
        exact hsame _ rfl rfl
    · rw [if_neg (Nat.not_lt.mpr hge)]
      exact hsame _ rfl rfl
  | sendA taskId msgType data size =>
    simp only [applyCall, sendMessage]
    by_cases h1 : taskId ≥ st.t.length ∨ size > 8
    · rw [if_pos h1]
      exact hsame _ rfl rfl
    · rw [if_neg h1]
      by_cases h2 : (taskAt st taskId).message.pending = true
      · rw [if_pos h2]
        exact hsame _ rfl rfl
      · rw [if_neg h2]
        by_cases hne : taskId = i
        · subst hne
          have hlt : taskId < st.t.length := by omega
          constructor
          · show ((modifyAt _ taskId st.t).getD taskId task0).state = T_WAIT
            rw [getD_modifyAt_self _ _ _ hlt]
            exact hw
          refine ⟨?_, rfl, ?_⟩
          · show ((modifyAt _ taskId st.t).getD taskId task0).sleepUntil = _
            rw [getD_modifyAt_self _ _ _ hlt]
            rfl
          · show (modifyAt _ taskId st.t).length = st.t.length
            rw [length_modifyAt]
        · apply hmod
          · exact hne
          · rfl
          · rfl
  | receiveA maxSize =>
    simp only [applyCall, receiveMessage]
    by_cases hp : (taskAt st st.cur).message.pending = true
    · rw [hp]
      simp only [Bool.not_true, if_neg Bool.false_ne_true]
      refine ⟨?_, ?_, by trivial, ?_⟩
      · show ((modifyAt _ st.cur st.t).getD i task0).state = T_WAIT
        rw [getD_modifyAt_ne _ _ _ _ hcur]
        exact hw
      · show ((modifyAt _ st.cur st.t).getD i task0).sleepUntil = _
        rw [getD_modifyAt_ne _ _ _ _ hcur]
        rfl
      · show (modifyAt _ st.cur st.t).length = st.t.length
        rw [length_modifyAt]
    · have hp2 : (taskAt st st.cur).message.pending = false := by
        cases hpb : (taskAt st st.cur).message.pending
        · rfl
        · exact absurd hpb hp
      rw [hp2]
      simp only [Bool.not_false, if_pos rfl]
      exact hsame _ rfl rfl
  | powerA b =>
    exact hsame _ rfl rfl

theorem applyCalls_preserves_wait (calls : List ApiCall) :
    ∀ (st : OsState) (now i : Nat),
      st.cur ≠ i → (taskAt st i).state = T_WAIT →
      (taskAt (applyCalls st now calls) i).state = T_WAIT ∧
      (taskAt (applyCalls st now calls) i).sleepUntil = (taskAt st i).sleepUntil ∧
      (applyCalls st now calls).cur = st.cur ∧
      (applyCalls st now calls).t.length = st.t.length := by
  induction calls with
  | nil => intro st now i _ hw; exact ⟨hw, rfl, rfl, rfl⟩
  | cons c rest ih =>
    intro st now i hcur hw
    obtain ⟨p1, p2, p3, p4⟩ := applyCall_preserves_wait st now c i hcur hw
    have hrest := ih (applyCall st now c) now i (by rw [p3]; exact hcur) p1
    simp only [applyCalls]
    refine ⟨hrest.1, ?_, ?_, ?_⟩
    · rw [hrest.2.1, p2]
    · rw [hrest.2.2.1, p3]
    · rw [hrest.2.2.2, p4]

theorem demote_preserves (st : OsState) (i : Nat) (hne : st.cur ≠ i) :
    taskAt (demote st) i = taskAt st i ∧ (demote st).t.length = st.t.length := by
  simp only [demote]
  by_cases hc : (taskAt st st.cur).state = T_RUN
  · rw [if_pos hc]
    constructor
    · simp only [taskAt]
      rw [getD_modifyAt_ne _ _ _ _ hne]
    · show (modifyAt _ st.cur st.t).length = st.t.length
      rw [length_modifyAt]
  · rw [if_neg hc]
    exact ⟨rfl, rfl⟩

theorem dispatchMark_preserves (st : OsState) (b now i : Nat) (hne : b ≠ i) :
    taskAt (dispatchMark st b now) i = taskAt st i ∧
    (dispatchMark st b now).cur = b ∧
    (dispatchMark st b now).t.length = st.t.length := by
  refine ⟨?_, rfl, ?_⟩
  · simp only [dispatchMark, taskAt]
    rw [getD_modifyAt_ne _ _ _ _ hne]
  · show (modifyAt _ b st.t).length = st.t.length
    rw [length_modifyAt]

theorem schedIter_preserves_wait (st : OsState) (now : Nat) (calls : List ApiCall)
    (i : Nat)
    (hw : (taskAt st i).state = T_WAIT)
    (hnow : now < (taskAt st i).sleepUntil)
    (hi : i < st.t.length) :
    (schedIter st now calls).1 ≠ some i ∧
    (taskAt (schedIter st now calls).2 i).state = T_WAIT ∧
    (taskAt (schedIter st now calls).2 i).sleepUntil = (taskAt st i).sleepUntil ∧
    (schedIter st now calls).2.t.length = st.t.length := by
  have hwk : (wakePass st.suspendFlags now st.t 0).getD i task0 = st.t.getD i task0 := by
    rw [getD_wakePass st.suspendFlags now st.t 0 i hi]
    by_cases hs : susBit st.suspendFlags (0 + i) = true
    · rw [if_pos hs]
    · rw [if_neg hs]
      simp only [wakeStep]
      rw [if_neg]
      intro hconj
      exact absurd hconj.2 (Nat.not_le.mpr hnow)
  cases hsel : selLoop2 (wakePass st.suspendFlags now st.t 0) st.suspendFlags now with
  | none =>
    simp only [schedIter, hsel]
    refine ⟨by simp, ?_, ?_, ?_⟩
    · simp only [taskAt]
      rw [hwk]
      exact hw
    · simp only [taskAt]
      rw [hwk]
    · show (wakePass st.suspendFlags now st.t 0).length = st.t.length
      rw [length_wakePass]
  | some b =>
    have hbne : b ≠ i := by
      rcases scanBest_some cmpGE st.suspendFlags now
          (wakePass st.suspendFlags now st.t 0) 0 none 0 b hsel with hcon | ⟨k, hk, hbk, hsk, hek⟩
      · exact absurd hcon (by simp)
      · intro hbi
        have hki : k = i := by omega
        rw [hki] at hek
        rw [hwk] at hek
        simp only [eligB] at hek
        have hw2 : (st.t.getD i task0).state = T_WAIT := hw
        rw [hw2] at hek
        simp [T_WAIT, T_READY] at hek
    have h1 : taskAt { st with t := wakePass st.suspendFlags now st.t 0 } i = taskAt st i := by
      simp only [taskAt]
      exact hwk
    have h2 := dispatchMark_preserves { st with t := wakePass st.suspendFlags now st.t 0 } b now i hbne
    have h3 := applyCalls_preserves_wait calls
      (dispatchMark { st with t := wakePass st.suspendFlags now st.t 0 } b now) now i
      (by rw [h2.2.1]; exact hbne)
      (by rw [h2.1, h1]; exact hw)
    have h4 := demote_preserves
      (applyCalls (dispatchMark { st with t := wakePass st.suspendFlags now st.t 0 } b now) now calls) i
      (by rw [h3.2.2.1, h2.2.1]; exact hbne)
    simp only [schedIter, hsel]
    refine ⟨by simp [hbne], ?_, ?_, ?_⟩
    · show (taskAt { demote (applyCalls (dispatchMark { st with
          t := wakePass st.suspendFlags now st.t 0 } b now) now calls) with
          ctxSw := ((demote (applyCalls (dispatchMark { st with
            t := wakePass st.suspendFlags now st.t 0 } b now) now calls)).ctxSw + 1) % U32 } i).state = T_WAIT
      have : taskAt { demote (applyCalls (dispatchMark { st with
          t := wakePass st.suspendFlags now st.t 0 } b now) now calls) with
          ctxSw := ((demote (applyCalls (dispatchMark { st with
            t := wakePass st.suspendFlags now st.t 0 } b now) now calls)).ctxSw + 1) % U32 } i =
          taskAt (demote (applyCalls (dispatchMark { st with
            t := wakePass st.suspendFlags now st.t 0 } b now) now calls)) i := rfl
      rw [this, h4.1]
      exact h3.1
    · show (taskAt { demote (applyCalls (dispatchMark { st with
          t := wakePass st.suspendFlags now st.t 0 } b now) now calls) with
          ctxSw := ((demote (applyCalls (dispatchMark { st with
            t := wakePass st.suspendFlags now st.t 0 } b now) now calls)).ctxSw + 1) % U32 } i).sleepUntil =
          (taskAt st i).sleepUntil
      have : taskAt { demote (applyCalls (dispatchMark { st with
          t := wakePass st.suspendFlags now st.t 0 } b now) now calls) with
          ctxSw := ((demote (applyCalls (dispatchMark { st with
            t := wakePass st.suspendFlags now st.t 0 } b now) now calls)).ctxSw + 1) % U32 } i =
          taskAt (demote (applyCalls (dispatchMark { st with
            t := wakePass st.suspendFlags now st.t 0 } b now) now calls)) i := rfl
      rw [this, h4.1, h3.2.1, h2.1, h1]
    · show (demote (applyCalls (dispatchMark { st with
          t := wakePass st.suspendFlags now st.t 0 } b now) now calls)).t.length = st.t.length
      rw [h4.2, h3.2.2.2, h2.2.2]
      show (wakePass st.suspendFlags now st.t 0).length = st.t.length
      rw [length_wakePass]

theorem runSteps_preserves_wait (steps : List (Nat × List ApiCall)) :
    ∀ (st : OsState) (i : Nat),
      (taskAt st i).state = T_WAIT →
      i < st.t.length →
      (∀ pr ∈ steps, pr.1 < (taskAt st i).sleepUntil) →
      (∀ s ∈ (runSteps st steps).1, s ≠ some i) ∧
      (taskAt (runSteps st steps).2 i).state = T_WAIT ∧
      (taskAt (runSteps st steps).2 i).sleepUntil = (taskAt st i).sleepUntil ∧
      (runSteps st steps).2.t.length = st.t.length := by
  induction steps with
  | nil =>
    intro st i hw _ _
    exact ⟨by simp [runSteps], hw, rfl, rfl⟩
  | cons pr rest ih =>
    intro st i hw hi hbound
    obtain ⟨now, calls⟩ := pr
    have hnow : now < (taskAt st i).sleepUntil := hbound (now, calls) (by simp)
    obtain ⟨q1, q2, q3, q4⟩ := schedIter_preserves_wait st now calls i hw hnow hi
    have hrest := ih (schedIter st now calls).2 i q2 (by rw [q4]; exact hi)
      (by intro pr2 hpr2; rw [q3]; exact hbound pr2 (by simp [hpr2]))
    simp only [runSteps]
    refine ⟨?_, hrest.2.1, hrest.2.2.1.trans q3, hrest.2.2.2.trans q4⟩
    intro s hs
    rcases List.mem_cons.mp hs with h | h
    · rw [h]
      exact q1
    · exact hrest.1 s h

/-! ### Claim C3: sleep delays dispatch until the wake boundary -/

/-- Claim C3 (amended): if the running task `i` calls `sleep d` at
time `t0` and `t0 + d` does not wrap the 32-bit clock, then over any
run of scheduler iterations whose clock values stay below `t0 + d`
(with arbitrary interleaved API calls by the dispatched tasks) task
`i` is never selected and stays WAITING with wake-time `t0 + d`; at
any iteration with clock value `≥ t0 + d`, if `i` is not
administratively suspended, the sleep-expiry pass moves it back to
READY with its wake-time cleared, and it is again eligible for
dispatch provided the scheduler's computed elapsed time since its last
dispatch has also reached its period. -/
theorem C3_sleep_no_early_dispatch (st : OsState) (i t0 d now2 : Nat)
    (steps : List (Nat × List ApiCall))
    (hcur : st.cur = i) (hi : i < st.t.length)
    (hd : d < U16) (hnw : t0 + d < U32)
    (hsteps : ∀ pr ∈ steps, pr.1 < t0 + d) :
    (∀ s ∈ (runSteps (sleep st t0 d) steps).1, s ≠ some i) ∧
    (taskAt (runSteps (sleep st t0 d) steps).2 i).state = T_WAIT ∧
    (taskAt (runSteps (sleep st t0 d) steps).2 i).sleepUntil = t0 + d ∧
    (t0 + d ≤ now2 →
      susBit (runSteps (sleep st t0 d) steps).2.suspendFlags i = false →
      ((wakePass (runSteps (sleep st t0 d) steps).2.suspendFlags now2
          (runSteps (sleep st t0 d) steps).2.t 0).getD i task0).state = T_READY ∧
      ((wakePass (runSteps (sleep st t0 d) steps).2.suspendFlags now2
          (runSteps (sleep st t0 d) steps).2.t 0).getD i task0).sleepUntil = 0 ∧
      ((taskAt (runSteps (sleep st t0 d) steps).2 i).period ≤
          elapsed now2 (taskAt (runSteps (sleep st t0 d) steps).2 i).last →
        eligibleIdx (wakePass (runSteps (sleep st t0 d) steps).2.suspendFlags now2
            (runSteps (sleep st t0 d) steps).2.t 0)
          (runSteps (sleep st t0 d) steps).2.suspendFlags now2 i = true)) := by
  subst hcur
  have hval : (t0 + d % U16) % U32 = t0 + d := by
    rw [Nat.mod_eq_of_lt hd, Nat.mod_eq_of_lt hnw]
  have ht1 : taskAt (sleep st t0 d) st.cur =
      { taskAt st st.cur with state := T_WAIT, sleepUntil := t0 + d } := by
    simp only [sleep, taskAt]
    rw [getD_modifyAt_self _ _ _ hi, hval]
  have hlen1 : (sleep st t0 d).t.length = st.t.length := length_modifyAt _ _ _
  have hstate1 : (taskAt (sleep st t0 d) st.cur).state = T_WAIT := by rw [ht1]
  have hsleep1 : (taskAt (sleep st t0 d) st.cur).sleepUntil = t0 + d := by rw [ht1]
  have main := runSteps_preserves_wait steps (sleep st t0 d) st.cur hstate1
    (by rw [hlen1]; exact hi)
    (by intro pr hpr; rw [hsleep1]; exact hsteps pr hpr)
  have hFsleep : (taskAt (runSteps (sleep st t0 d) steps).2 st.cur).sleepUntil = t0 + d :=
    main.2.2.1.trans hsleep1
  refine ⟨main.1, main.2.1, hFsleep, ?_⟩
  intro hge hsus
  have hiF : st.cur < (runSteps (sleep st t0 d) steps).2.t.length := by
    rw [main.2.2.2, hlen1]
    exact hi
  have hwake : (wakePass (runSteps (sleep st t0 d) steps).2.suspendFlags now2
      (runSteps (sleep st t0 d) steps).2.t 0).getD st.cur task0 =
      { taskAt (runSteps (sleep st t0 d) steps).2 st.cur with
          state := T_READY, sleepUntil := 0 } := by
    rw [getD_wakePass _ _ _ 0 st.cur hiF]
    rw [show (0 : Nat) + st.cur = st.cur from Nat.zero_add st.cur, hsus]
    simp only [if_neg Bool.false_ne_true, wakeStep, taskAt]
    rw [if_pos]
    constructor
    · exact main.2.1
    · rw [show ((runSteps (sleep st t0 d) steps).2.t.getD st.cur task0).sleepUntil =
          t0 + d from hFsleep]
      exact hge
  refine ⟨by rw [hwake], by rw [hwake], ?_⟩
  intro hper
  simp only [eligibleIdx]
  rw [hwake, hsus]
  simp [eligB, hper]

/-- The wrap half of the claim C3 counterexample: the single task is
running at clock value `2^32 - 100` when it calls `sleep(200)`. -/
def stC3wrap : OsState :=
  ⟨[{ period := 0, last := (U32 - 100) % U16, state := T_RUN, pri := 2, tid := 0,
      sleepUntil := 0, startRun := U32 - 100, message := mbox0 }], 0, 0, 0, 0, false⟩

/-- The boundary half of the claim C3 counterexample: a period-100
task running at clock value 0 that calls `sleep(5)`. -/
def stC3period : OsState :=
  ⟨[{ period := 100, last := 0, state := T_RUN, pri := 2, tid := 0,
      sleepUntil := 0, startRun := 0, message := mbox0 }], 0, 0, 0, 0, false⟩

/-- Claim C3, counterexample to the claim as stated: (wrap) after
`sleep(200)` at `t0 = 2^32 - 100` the task is dispatched again at the
very next clock value `2^32 - 99`, which is strictly less than
`t0 + 200`; (boundary) after `sleep(5)` at `t0 = 0` with period 100,
at the boundary `now = 5` the task does transition WAITING → READY but
is not eligible for dispatch (its period has not elapsed) and the
iteration dispatches nothing. -/
theorem C3_counterexample :
    (schedIter (sleep stC3wrap (U32 - 100) 200) (U32 - 99) []).1 = some 0 ∧
    U32 - 99 < (U32 - 100) + 200 ∧
    (taskAt (sleep stC3period 0 5) 0).state = T_WAIT ∧
    ((wakePass (sleep stC3period 0 5).suspendFlags 5
        (sleep stC3period 0 5).t 0).getD 0 task0).state = T_READY ∧
    eligibleIdx (wakePass (sleep stC3period 0 5).suspendFlags 5
        (sleep stC3period 0 5).t 0)
      (sleep stC3period 0 5).suspendFlags 5 0 = false ∧
    (schedIter (sleep stC3period 0 5) 5 []).1 = none := by decide

/-- Initial state for the claim C3 witness: two READY tasks, task 0
(the current task) at priority 2, task 1 at priority 1, both with
period 0. -/
def stW3 : OsState :=
  ⟨[{ period := 0, last := 0, state := T_RUN, pri := 2, tid := 0,
      sleepUntil := 0, startRun := 0, message := mbox0 },
    { period := 0, last := 0, state := T_READY, pri := 1, tid := 1,
      sleepUntil := 0, startRun := 0, message := mbox0 }], 0, 0, 0, 0, false⟩

/-- Claim C3, witness: task 0 sleeps 20 ms at `t0 = 10`; over
iterations at clock values 15 and 25 it is never selected and stays
WAITING with wake-time 30, and at `now = 30` it wakes to READY and is
eligible again. -/
theorem C3_sleep_no_early_dispatch_witness :
    (∀ s ∈ (runSteps (sleep stW3 10 20) [(15, []), (25, [])]).1, s ≠ some 0) ∧
    (taskAt (runSteps (sleep stW3 10 20) [(15, []), (25, [])]).2 0).state = T_WAIT ∧
    (taskAt (runSteps (sleep stW3 10 20) [(15, []), (25, [])]).2 0).sleepUntil = 10 + 20 ∧
    (10 + 20 ≤ 30 →
      susBit (runSteps (sleep stW3 10 20) [(15, []), (25, [])]).2.suspendFlags 0 = false →
      ((wakePass (runSteps (sleep stW3 10 20) [(15, []), (25, [])]).2.suspendFlags 30
          (runSteps (sleep stW3 10 20) [(15, []), (25, [])]).2.t 0).getD 0 task0).state = T_READY ∧
      ((wakePass (runSteps (sleep stW3 10 20) [(15, []), (25, [])]).2.suspendFlags 30
          (runSteps (sleep stW3 10 20) [(15, []), (25, [])]).2.t 0).getD 0 task0).sleepUntil = 0 ∧
      ((taskAt (runSteps (sleep stW3 10 20) [(15, []), (25, [])]).2 0).period ≤
          elapsed 30 (taskAt (runSteps (sleep stW3 10 20) [(15, []), (25, [])]).2 0).last →
        eligibleIdx (wakePass (runSteps (sleep stW3 10 20) [(15, []), (25, [])]).2.suspendFlags 30
            (runSteps (sleep stW3 10 20) [(15, []), (25, [])]).2.t 0)
          (runSteps (sleep stW3 10 20) [(15, []), (25, [])]).2.suspendFlags 30 0 = true)) :=
  C3_sleep_no_early_dispatch stW3 0 10 20 30 [(15, []), (25, [])]
    (by decide) (by decide) (by decide) (by decide) (by decide)

/-! ### Claim C7: suspend/resume are orthogonal to sleep -/

theorem susBit_or_set (x id : Nat) (h : id < 8) :
    susBit ((x ||| (1 <<< id)) % 256) id = true := by
  have hsh : (1 : Nat) <<< id = 2 ^ id := by simp [Nat.shiftLeft_eq]
  have h256 : (256 : Nat) = 2 ^ 8 := by norm_num
  have hbit : Nat.testBit ((x ||| 2 ^ id) % 256) id = true := by
    rw [h256, Nat.testBit_mod_two_pow]
    simp [Nat.testBit_lor, Nat.testBit_two_pow_self, h]
  simp only [susBit, bne_iff_ne, ne_eq]
  rw [hsh]
  intro h0
  have h1 := congrArg (fun n => Nat.testBit n id) h0
  simp only [Nat.testBit_land, Nat.zero_testBit, hbit, Bool.true_and,
    Nat.testBit_two_pow_self, Bool.and_true] at h1
  exact absurd h1 (by decide)

theorem and_mask_clear (x id : Nat) :
    (x &&& (255 ^^^ ((1 <<< id) % 256))) &&& (1 <<< id) = 0 := by
  have hsh : (1 : Nat) <<< id = 2 ^ id := by simp [Nat.shiftLeft_eq]
  rw [hsh]
  apply Nat.eq_of_testBit_eq
  intro j
  rw [Nat.zero_testBit, Nat.testBit_land, Nat.testBit_land, Nat.testBit_xor]
  by_cases hj : id = j
  · subst hj
    by_cases h8 : id < 8
    · have hlt : (2 : Nat) ^ id < 256 := by
        have : (2 : Nat) ^ id ≤ 2 ^ 7 := Nat.pow_le_pow_right (by norm_num) (by omega)
        omega
      have hmod : (2 : Nat) ^ id % 256 = 2 ^ id := Nat.mod_eq_of_lt hlt
      have h255 : Nat.testBit 255 id = true := by
        have h2 : (255 : Nat) = 2 ^ 8 - 1 := by norm_num
        rw [h2, Nat.testBit_two_pow_sub_one]
        simp [h8]
      rw [hmod, h255, Nat.testBit_two_pow_self]
      simp
    · have hmod : (2 : Nat) ^ id % 256 = 0 := by
        apply Nat.dvd_iff_mod_eq_zero.mp
        have h2 : (256 : Nat) = 2 ^ 8 := by norm_num
        rw [h2]
        exact pow_dvd_pow 2 (by omega)
      have h255 : Nat.testBit 255 id = false := by
        have h2 : (255 : Nat) = 2 ^ 8 - 1 := by norm_num
        rw [h2, Nat.testBit_two_pow_sub_one]
        simp [h8]
      rw [hmod, h255, Nat.zero_testBit]
      simp
  · rw [Nat.testBit_two_pow_of_ne hj]
    simp

theorem susBit_and_clear (x id : Nat) :
    susBit (x &&& (255 ^^^ ((1 <<< id) % 256))) id = false := by
  simp only [susBit, and_mask_clear, bne_self_eq_false]

/-- Claim C7: on a WAITING task with a valid id, `suspendTask` returns
0, sets the suspend bit, and leaves the whole task table — hence the
task's WAITING state and its wake-time — untouched; a subsequent
`resumeTask` clears the bit and again leaves the table untouched, so
the task is still WAITING with its original wake-time and is not
dispatched by a scheduler iteration whose clock value is below that
wake-time.  In general `resumeTask` on a valid id promotes a
SUSPENDED task to READY and, for a task in any other state, clears
the suspend bit while leaving the task table unchanged. -/
theorem C7_suspend_resume_orthogonal (st : OsState) (id now : Nat)
    (calls : List ApiCall)
    (hcap : st.t.length ≤ MAX_TASKS) (hid : id < st.t.length)
    (hw : (taskAt st id).state = T_WAIT)
    (hnow : now < (taskAt st id).sleepUntil) :
    (suspendTask st id).1 = 0 ∧
    (suspendTask st id).2.t = st.t ∧
    susBit (suspendTask st id).2.suspendFlags id = true ∧
    (resumeTask (suspendTask st id).2 id).1 = 0 ∧
    (resumeTask (suspendTask st id).2 id).2.t = st.t ∧
    susBit (resumeTask (suspendTask st id).2 id).2.suspendFlags id = false ∧
    (schedIter (resumeTask (suspendTask st id).2 id).2 now calls).1 ≠ some id ∧
    (∀ (st2 : OsState) (id2 : Nat), id2 < st2.t.length →
      ((taskAt st2 id2).state = T_SUSPENDED →
        (resumeTask st2 id2).2.t =
          modifyAt (fun tk => { tk with state := T_READY }) id2 st2.t) ∧
      ((taskAt st2 id2).state ≠ T_SUSPENDED → (resumeTask st2 id2).2.t = st2.t) ∧
      susBit (resumeTask st2 id2).2.suspendFlags id2 = false) := by
  have hid8 : id < 8 := by
    simp only [MAX_TASKS] at hcap
    omega
  have hnw : ¬ (taskAt st id).state ≠ T_WAIT := fun hc => hc hw
  have hsus : suspendTask st id =
      (0, { st with suspendFlags := (st.suspendFlags ||| (1 <<< id)) % 256 }) := by
    simp only [suspendTask]
    rw [if_pos hid, if_neg hnw]
  have hnsusp : (taskAt { st with
      suspendFlags := (st.suspendFlags ||| (1 <<< id)) % 256 } id).state ≠ T_SUSPENDED := by
    show (taskAt st id).state ≠ T_SUSPENDED
    rw [hw]
    decide
  have hres : resumeTask { st with
      suspendFlags := (st.suspendFlags ||| (1 <<< id)) % 256 } id =
      (0, { st with suspendFlags := ((st.suspendFlags ||| (1 <<< id)) % 256) &&&
              (255 ^^^ ((1 <<< id) % 256)) }) := by
    simp only [resumeTask]
    rw [if_pos (show id < ({ st with
        suspendFlags := (st.suspendFlags ||| (1 <<< id)) % 256 } : OsState).t.length from hid),
      if_neg hnsusp]
  have hgen : ∀ (st2 : OsState) (id2 : Nat), id2 < st2.t.length →
      ((taskAt st2 id2).state = T_SUSPENDED →
        (resumeTask st2 id2).2.t =
          modifyAt (fun tk => { tk with state := T_READY }) id2 st2.t) ∧
      ((taskAt st2 id2).state ≠ T_SUSPENDED → (resumeTask st2 id2).2.t = st2.t) ∧
      susBit (resumeTask st2 id2).2.suspendFlags id2 = false := by
    intro st2 id2 hid2
    refine ⟨?_, ?_, ?_⟩
    · intro hs
      simp only [resumeTask]
      rw [if_pos hid2, if_pos hs]
    · intro hs
      simp only [resumeTask]
      rw [if_pos hid2, if_neg hs]
    · simp only [resumeTask]
      rw [if_pos hid2]
      by_cases hs : (taskAt st2 id2).state = T_SUSPENDED
      · rw [if_pos hs]
        exact susBit_and_clear _ _
      · rw [if_neg hs]
        exact susBit_and_clear _ _
  rw [hsus, hres]
  have hiter := schedIter_preserves_wait
    { st with suspendFlags := ((st.suspendFlags ||| (1 <<< id)) % 256) &&&
        (255 ^^^ ((1 <<< id) % 256)) } now calls id hw hnow hid
  exact ⟨rfl, rfl, susBit_or_set _ _ hid8, rfl, rfl, susBit_and_clear _ _,
    hiter.1, hgen⟩

/-- State for the claim C7 witness: task 0 WAITING until clock value
50, task 1 READY. -/
def stW7 : OsState :=
  ⟨[{ period := 0, last := 0, state := T_WAIT, pri := 2, tid := 0,
      sleepUntil := 50, startRun := 0, message := mbox0 },
    { period := 0, last := 0, state := T_READY, pri := 1, tid := 1,
      sleepUntil := 0, startRun := 0, message := mbox0 }], 0, 0, 0, 0, false⟩

/-- Claim C7, witness: suspend then resume of the WAITING task 0
preserves its descriptor (including wake-time 50) exactly, and an
iteration at clock value 40 does not dispatch it. -/
theorem C7_suspend_resume_orthogonal_witness :
    (suspendTask stW7 0).1 = 0 ∧
    (suspendTask stW7 0).2.t = stW7.t ∧
    susBit (suspendTask stW7 0).2.suspendFlags 0 = true ∧
    (resumeTask (suspendTask stW7 0).2 0).1 = 0 ∧
    (resumeTask (suspendTask stW7 0).2 0).2.t = stW7.t ∧
    susBit (resumeTask (suspendTask stW7 0).2 0).2.suspendFlags 0 = false ∧
    (schedIter (resumeTask (suspendTask stW7 0).2 0).2 40 []).1 ≠ some 0 ∧
    (∀ (st2 : OsState) (id2 : Nat), id2 < st2.t.length →
      ((taskAt st2 id2).state = T_SUSPENDED →
        (resumeTask st2 id2).2.t =
          modifyAt (fun tk => { tk with state := T_READY }) id2 st2.t) ∧
      ((taskAt st2 id2).state ≠ T_SUSPENDED → (resumeTask st2 id2).2.t = st2.t) ∧
      susBit (resumeTask st2 id2).2.suspendFlags id2 = false) :=
  C7_suspend_resume_orthogonal stW7 0 40 [] (by decide) (by decide)
    (by decide) (by decide)

end Nimbus
